import Mathlib

/-!
Shallow embedding of `seekaur.go` (a command-line AUR client) and proofs of
the specification's claims about it.

Modelling conventions:
* Go `int` fields become `Int`; Go strings become Lean `String`.
* A Go runtime panic (out-of-range slice or index) is modelled by `Option`:
  `none` means the operation panics.
* Go string comparison `<` compares raw bytes; since UTF-8 byte order agrees
  with codepoint order, it is embedded as codepoint-lexicographic comparison
  on the character list.
* The network fetch in `multiInfo` is abstracted away: the reconciliation loop
  is embedded as a function of the argument list and the decoded response
  records, with the render callback as a pure function returning an optional
  error.
* `sort.Sort(PackageList(...))` is an unspecified comparison sort: it produces
  some permutation of its input that is pairwise ordered by the embedded
  `less`.  The embedding uses `List.mergeSort` with the complementary
  non-strict comparator; the theorems about it rely only on sortedness and
  permutation, which every run of Go's `sort.Sort` also guarantees.
-/

namespace Seekaur

/-- The `Package` struct of `seekaur.go` (timestamps kept as decoded Unix
seconds, which is exactly what `timeUnmarshaler` stores). -/
structure Package where
  Maintainer : String
  ID : Int
  Name : String
  Version : String
  CategoryID : Int
  Description : String
  URL : String
  License : String
  NumVotes : Int
  OutOfDate : Int
  FirstSubmitted : Int
  LastModified : Int
  URLPath : String
deriving DecidableEq

/-- Go string comparison `a < b`: byte-lexicographic, embedded as
codepoint-lexicographic comparison of the character lists (UTF-8 byte order
coincides with codepoint order). -/
def goStringLess : List Char → List Char → Bool
  | [], [] => false
  | [], _ :: _ => true
  | _ :: _, [] => false
  | a :: as, b :: bs =>
    if a.toNat < b.toNat then true
    else if a.toNat = b.toNat then goStringLess as bs
    else false

/-- `PackageList.Less` from `seekaur.go`: category identifier first, then
name within equal category. -/
def less (a b : Package) : Bool :=
  if a.CategoryID < b.CategoryID then true
  else if (a.CategoryID == b.CategoryID) && goStringLess a.Name.data b.Name.data then true
  else false

/-- The non-strict comparator complementary to `less`; a list is sorted in the
sense of `sort.Sort` with `PackageList.Less` exactly when it is pairwise
ordered by this. -/
def sortLE (a b : Package) : Bool := !(less b a)

/-- `sort.Sort(PackageList(results.Results))` from the `search` command: a
comparison sort by `PackageList.Less`, embedded via `mergeSort` with the
complementary non-strict comparator (see the module docstring). -/
def sortPackages (l : List Package) : List Package := l.mergeSort sortLE

/-- The `categories` slice literal from `main`: sparse Go slice literal with
indices 1..20, so it has length 21 and index 0 holds the zero value `""`. -/
def categories : List String :=
  ["", "none", "daemons", "devel", "editors", "emulators", "games", "gnome",
   "18n", "kde", "lib", "modules", "multimedia", "network", "office",
   "science", "system", "x11", "xfce", "kernels", "fonts"]

/-- Go slice-literal indexing `categories[i]` for a Go `int` index: panics
(`none`) when `i < 0` or `i ≥ len(categories)`. -/
def categoriesGet (i : Int) : Option String :=
  if 0 ≤ i then categories[i.toNat]? else none

/-- Go string slicing `s[lo:hi]`: panics (`none`) unless `lo ≤ hi ≤ len(s)`.
(Go slices bytes; the identifiers in the claims are ASCII, where byte and
character positions coincide.) -/
def goStringSlice (s : String) (lo hi : Nat) : Option String :=
  if lo ≤ hi ∧ hi ≤ s.data.length then some ⟨(s.data.drop lo).take (hi - lo)⟩
  else none

/-- The tarball URL the `tarball` command prints for one identifier `s`:
`https://aur.archlinux.org/packages/<s[0:2]>/<s>/<s>.tar.gz`. -/
def tarballURL (s : String) : Option String :=
  (goStringSlice s 0 2).map fun pre =>
    "https://aur.archlinux.org/packages/" ++ pre ++ "/" ++ s ++ "/" ++ s ++ ".tar.gz"

/-- The PKGBUILD URL the `pkgbuild` command fetches for one identifier `s`:
`https://aur.archlinux.org/packages/<s[0:2]>/<s>/PKGBUILD`. -/
def pkgbuildURL (s : String) : Option String :=
  (goStringSlice s 0 2).map fun pre =>
    "https://aur.archlinux.org/packages/" ++ pre ++ "/" ++ s ++ "/PKGBUILD"

/-- First-match scan of the response records for an exact name match: the
inner `for _, pkg := range results.Results { if pkg.Name == args[arg] ... break }`
loop of `multiInfo`. -/
def findPackage (results : List Package) (a : String) : Option Package :=
  results.find? fun pkg => pkg.Name == a

/-- The argument loop of `multiInfo`: processes the requested identifiers in
the caller's order; for each one, the first record whose name matches it is
passed to the callback `f` (a callback error aborts the whole loop at once);
an identifier with no match gets a not-found diagnostic.  Returns the callback
invocations in order, the not-found diagnostics in order, and the callback
error, if any. -/
def multiInfoLoop (args : List String) (results : List Package)
    (f : Package → Option E) : List Package × List String × Option E :=
  match args with
  | [] => ([], [], none)
  | a :: rest =>
    match findPackage results a with
    | some pkg =>
      match f pkg with
      | some e => ([pkg], [], some e)
      | none =>
        let r := multiInfoLoop rest results f
        (pkg :: r.1, r.2.1, r.2.2)
    | none =>
      let r := multiInfoLoop rest results f
      (r.1, a :: r.2.1, r.2.2)

/-- The ways `multiInfo` can fail: the callback returned an error, or the
final `"Some packages were not found"` aggregate error. -/
inductive MultiInfoError (E : Type) where
  | callbackErr (e : E)
  | someNotFound
deriving DecidableEq

/-- `multiInfo` from `seekaur.go`, after the network fetch: reconciles the
requested identifiers against the decoded response records, then reports the
aggregate error exactly when `len(results.Results) < len(args)`.  Returns the
callback invocations, the not-found diagnostics, and the outcome. -/
def multiInfo (args : List String) (results : List Package)
    (f : Package → Option E) :
    List Package × List String × Except (MultiInfoError E) Unit :=
  let r := multiInfoLoop args results f
  match r.2.2 with
  | some e => (r.1, r.2.1, Except.error (MultiInfoError.callbackErr e))
  | none =>
    if results.length < args.length then
      (r.1, r.2.1, Except.error MultiInfoError.someNotFound)
    else
      (r.1, r.2.1, Except.ok ())

/-- Numeric value of a digit string read left to right, as `strconv` does. -/
def digitsToNat (ds : List Char) : Nat :=
  ds.foldl (fun n d => n * 10 + (d.toNat - 48)) 0

/-- The digit-and-range part of `strconv.Atoi` after the optional sign has
been consumed: at least one ASCII decimal digit, and the signed value must
fit a 64-bit integer (Go `int` on a 64-bit platform); otherwise an error
(`none`).  `9223372036854775808 = 2^63`. -/
def goAtoiDigits (neg : Bool) (ds : List Char) : Option Int :=
  if ds.isEmpty then none
  else if ds.all Char.isDigit then
    let v : Int :=
      if neg then -(digitsToNat ds : Int) else (digitsToNat ds : Int)
    if -(9223372036854775808 : Int) ≤ v ∧ v < 9223372036854775808 then some v
    else none
  else none

/-- Go's `strconv.Atoi` (on a 64-bit platform): an optional single `+`/`-`
sign followed by one or more ASCII decimal digits, with the value required to
fit a signed 64-bit integer; anything else is an error (`none`). -/
def goAtoi (s : String) : Option Int :=
  match s.data with
  | [] => goAtoiDigits false []
  | c :: rest =>
    if c = '-' then goAtoiDigits true rest
    else if c = '+' then goAtoiDigits false rest
    else goAtoiDigits false (c :: rest)

/-- `timeUnmarshaler.UnmarshalJSON` from `seekaur.go`: runs `strconv.Atoi` on
the raw JSON scalar text and, on success, stores `time.Unix(unix, 0)`, i.e.
the instant that many seconds after the Unix epoch.  The result is that
count of epoch seconds; a parse error propagates (`none`). -/
def timeUnmarshalJSON (s : String) : Option Int := goAtoi s

/-- Digit-and-range part of `validIntegerToken`. -/
def validTokenBody (neg : Bool) (ds : List Char) : Bool :=
  !ds.isEmpty && ds.all Char.isDigit &&
    (if neg then decide (digitsToNat ds ≤ 9223372036854775808)
     else decide (digitsToNat ds < 9223372036854775808))

/-- Written from the spec's words: "a valid base-10 integer token" — an
optional sign, then at least one decimal digit, denoting a value that fits
the decoder's signed 64-bit integer type.  To be compared with the success
domain of `goAtoi`. -/
def validIntegerToken (s : String) : Bool :=
  match s.data with
  | [] => validTokenBody false []
  | c :: rest =>
    if c = '-' then validTokenBody true rest
    else if c = '+' then validTokenBody false rest
    else validTokenBody false (c :: rest)

/-- Leap-year rule of the proleptic Gregorian calendar. -/
def isLeapYear (y : Nat) : Bool :=
  (y % 4 == 0 && y % 100 != 0) || y % 400 == 0

/-- Days in a civil year. -/
def daysInYear (y : Nat) : Nat := if isLeapYear y then 366 else 365

/-- Days in the `k` civil years starting at 1970. -/
def daysFromEpochYears : Nat → Nat
  | 0 => 0
  | k + 1 => daysFromEpochYears k + daysInYear (1970 + k)

/-- Days from 1970-01-01 to the start of year `y` (for `y ≥ 1970`). -/
def daysBeforeYear (y : Nat) : Nat := daysFromEpochYears (y - 1970)

/-- Days in month `m` (1..12) of year `y`. -/
def daysInMonth (y m : Nat) : Nat :=
  if m = 2 then (if isLeapYear y then 29 else 28)
  else if m = 4 ∨ m = 6 ∨ m = 9 ∨ m = 11 then 30
  else 31

/-- Days from the start of year `y` to the start of month `m` (1..12). -/
def daysBeforeMonth (y : Nat) : Nat → Nat
  | 0 => 0
  | 1 => 0
  | m + 1 => daysBeforeMonth y m + daysInMonth y m

/-- Seconds since the Unix epoch of the UTC instant `y-m-d hh:mm:ss`. -/
def epochSecondsUTC (y m d hh mm ss : Nat) : Nat :=
  ((daysBeforeYear y + daysBeforeMonth y m + (d - 1)) * 86400)
    + hh * 3600 + mm * 60 + ss

/-- The color escape the `search` command prints before the version: green
when `p.OutOfDate == 0`, red otherwise. -/
def searchVersionColor (p : Package) : String :=
  if p.OutOfDate == 0 then "\x1B[1;32m" else "\x1B[1;31m"

/-- The first chunk the `search` command prints for a record:
`fmt.Printf("%saur/%s/%s%s ", magenta, category, white, p.Name)`. -/
def searchHeaderChunk (cat : String) (p : Package) : String :=
  "\x1B[1;35m" ++ "aur/" ++ cat ++ "/" ++ "\x1B[1;37m" ++ p.Name ++ " "

/-- The version chunk the `search` command prints (`fmt.Println(p.Version)`):
the version followed by a newline, with no textual suffix in any case. -/
def searchVersionChunk (p : Package) : String := p.Version ++ "\n"

/-- The indented description line the `search` command prints. -/
def searchDescriptionChunk (p : Package) : String :=
  "    " ++ "\x1B[0m" ++ p.Description ++ "\n"

/-- Compact (search) rendering of one record: the chunks written to standard
output, in order.  The category-table indexing `categories[p.CategoryID]`
has no bounds check, so an out-of-range `CategoryID` panics (`none`). -/
def searchChunks (p : Package) : Option (List String) :=
  (categoriesGet p.CategoryID).map fun cat =>
    [searchHeaderChunk cat p, searchVersionColor p, searchVersionChunk p,
     searchDescriptionChunk p]

/-- The version line of the `info` command (without its trailing newline):
`Version : <version>`, plus the literal suffix `" [out of date]"` exactly
when `p.OutOfDate != 0`. -/
def infoVersionLine (p : Package) : String :=
  "\x1B[1mVersion         : \x1B[0m" ++ p.Version ++
    (if p.OutOfDate != 0 then " [out of date]" else "")

/-- Verbose (info) rendering of one record: the printed lines, in order, each
without its trailing newline (the final `""` is the blank separator line).
`fmtTime` stands for Go's `time.Format("Mon 02 Jan 2006 03:04:05 PM MST")`
applied to the decoded epoch seconds.  The category-table indexing
`categories[thispkg.CategoryID]` has no bounds check, so an out-of-range
`CategoryID` panics (`none`). -/
def infoLines (fmtTime : Int → String) (p : Package) : Option (List String) :=
  (categoriesGet p.CategoryID).map fun cat =>
    ["\x1B[1mCategory        : \x1B[0m" ++ cat,
     "\x1B[1mName            : \x1B[0m" ++ p.Name,
     infoVersionLine p,
     "\x1B[1mDescription     : \x1B[0m" ++ p.Description,
     "\x1B[1mURL             : \x1B[0m" ++ p.URL,
     "\x1B[1mLicenses        : \x1B[0m" ++ p.License,
     "\x1B[1mMaintainer      : \x1B[0m" ++ p.Maintainer,
     "\x1B[1mFirst Submitted : \x1B[0m" ++ fmtTime p.FirstSubmitted,
     "\x1B[1mLast Modified   : \x1B[0m" ++ fmtTime p.LastModified,
     "\x1B[1mVotes           : \x1B[0m" ++ toString p.NumVotes,
     ""]

/-- Concrete record used in the claim scenarios: a current (not stale)
package named `X` in category 3. -/
def pkgX : Package :=
  { Maintainer := "m", ID := 1, Name := "X", Version := "1.0-1",
    CategoryID := 3, Description := "d", URL := "u", License := "l",
    NumVotes := 0, OutOfDate := 0, FirstSubmitted := 0, LastModified := 0,
    URLPath := "" }

/-- Concrete record named `Y`. -/
def pkgY : Package := { pkgX with Name := "Y", ID := 2 }

/-- Concrete record named `Z`. -/
def pkgZ : Package := { pkgX with Name := "Z", ID := 3 }

/-- Concrete record with a nonzero staleness flag. -/
def pkgStale : Package := { pkgX with Name := "S", ID := 4, OutOfDate := 1 }

/-- Concrete record with an out-of-range category identifier. -/
def pkgBadCat : Package := { pkgX with Name := "B", ID := 5, CategoryID := 21 }

/-! ### Ordering lemmas for the search-result comparison -/

theorem char_eq_of_toNat {a b : Char} (h : a.toNat = b.toNat) : a = b := by
  rcases a with ⟨⟨av, ha⟩, pa⟩
  rcases b with ⟨⟨bv, hb⟩, pb⟩
  simp [Char.toNat, UInt32.toNat] at h
  subst h
  rfl

theorem string_eq_of_data {s t : String} (h : s.data = t.data) : s = t := by
  cases s
  cases t
  simp_all

theorem goStringLess_irrefl (l : List Char) : goStringLess l l = false := by
  induction l with
  | nil => rfl
  | cons a as ih => simp [goStringLess, ih]

theorem goStringLess_cons (a b : Char) (as bs : List Char) :
    goStringLess (a :: as) (b :: bs) = true ↔
      a.toNat < b.toNat ∨ (a.toNat = b.toNat ∧ goStringLess as bs = true) := by
  simp only [goStringLess]
  split_ifs with h1 h2 <;> simp_all

theorem goStringLess_trans {l₁ l₂ l₃ : List Char}
    (h₁ : goStringLess l₁ l₂ = true) (h₂ : goStringLess l₂ l₃ = true) :
    goStringLess l₁ l₃ = true := by
  induction l₁ generalizing l₂ l₃ with
  | nil =>
    cases l₂ with
    | nil => exact absurd h₁ (by simp [goStringLess])
    | cons b bs =>
      cases l₃ with
      | nil => exact absurd h₂ (by simp [goStringLess])
      | cons c cs => simp [goStringLess]
  | cons a as ih =>
    cases l₂ with
    | nil => exact absurd h₁ (by simp [goStringLess])
    | cons b bs =>
      cases l₃ with
      | nil => exact absurd h₂ (by simp [goStringLess])
      | cons c cs =>
        rw [goStringLess_cons] at h₁ h₂ ⊢
        rcases h₁ with h₁ | ⟨h₁e, h₁r⟩ <;> rcases h₂ with h₂ | ⟨h₂e, h₂r⟩
        · exact Or.inl (by omega)
        · exact Or.inl (by omega)
        · exact Or.inl (by omega)
        · exact Or.inr ⟨by omega, ih h₁r h₂r⟩

theorem goStringLess_asymm {l₁ l₂ : List Char} (h : goStringLess l₁ l₂ = true) :
    goStringLess l₂ l₁ = false := by
  cases hgs : goStringLess l₂ l₁
  · rfl
  · have := goStringLess_trans h hgs
    rw [goStringLess_irrefl] at this
    cases this

theorem goStringLess_connex : ∀ {l₁ l₂ : List Char},
    goStringLess l₁ l₂ = false → goStringLess l₂ l₁ = false → l₁ = l₂ := by
  intro l₁
  induction l₁ with
  | nil =>
    intro l₂ h₁ h₂
    cases l₂ with
    | nil => rfl
    | cons b bs => simp [goStringLess] at h₁
  | cons a as ih =>
    intro l₂ h₁ h₂
    cases l₂ with
    | nil => simp [goStringLess] at h₂
    | cons b bs =>
      have hab : a.toNat = b.toNat := by
        by_contra hne
        rcases Nat.lt_or_ge a.toNat b.toNat with hlt | hge
        · have ht : goStringLess (a :: as) (b :: bs) = true :=
            (goStringLess_cons a b as bs).mpr (Or.inl hlt)
          simp [ht] at h₁
        · have hlt : b.toNat < a.toNat := by omega
          have ht : goStringLess (b :: bs) (a :: as) = true :=
            (goStringLess_cons b a bs as).mpr (Or.inl hlt)
          simp [ht] at h₂
      have h₁r : goStringLess as bs = false := by
        cases hgs : goStringLess as bs
        · rfl
        · have ht : goStringLess (a :: as) (b :: bs) = true :=
            (goStringLess_cons a b as bs).mpr (Or.inr ⟨hab, hgs⟩)
          simp [ht] at h₁
      have h₂r : goStringLess bs as = false := by
        cases hgs : goStringLess bs as
        · rfl
        · have ht : goStringLess (b :: bs) (a :: as) = true :=
            (goStringLess_cons b a bs as).mpr (Or.inr ⟨hab.symm, hgs⟩)
          simp [ht] at h₂
      rw [char_eq_of_toNat hab, ih h₁r h₂r]

theorem less_iff (a b : Package) :
    less a b = true ↔
      a.CategoryID < b.CategoryID ∨
        (a.CategoryID = b.CategoryID ∧
          goStringLess a.Name.data b.Name.data = true) := by
  unfold less
  split_ifs with h1 h2 <;> simp_all

theorem less_asymm (a b : Package) (h : less a b = true) : less b a = false := by
  cases hba : less b a
  · rfl
  · exfalso
    rcases (less_iff a b).mp h with h1 | ⟨h1, h2⟩ <;>
      rcases (less_iff b a).mp hba with g1 | ⟨g1, g2⟩
    · omega
    · omega
    · omega
    · have := goStringLess_asymm h2
      simp [g2] at this

theorem less_trans (a b c : Package) (h₁ : less a b = true)
    (h₂ : less b c = true) : less a c = true := by
  rw [less_iff] at h₁ h₂ ⊢
  rcases h₁ with h₁ | ⟨h₁e, h₁n⟩ <;> rcases h₂ with h₂ | ⟨h₂e, h₂n⟩
  · exact Or.inl (by omega)
  · exact Or.inl (by omega)
  · exact Or.inl (by omega)
  · exact Or.inr ⟨by omega, goStringLess_trans h₁n h₂n⟩

theorem less_connex (a b : Package) (h₁ : less a b = false)
    (h₂ : less b a = false) :
    a.CategoryID = b.CategoryID ∧ a.Name = b.Name := by
  have n₁ : ¬(a.CategoryID < b.CategoryID ∨
      (a.CategoryID = b.CategoryID ∧
        goStringLess a.Name.data b.Name.data = true)) := by
    rw [← less_iff]
    simp [h₁]
  have n₂ : ¬(b.CategoryID < a.CategoryID ∨
      (b.CategoryID = a.CategoryID ∧
        goStringLess b.Name.data a.Name.data = true)) := by
    rw [← less_iff]
    simp [h₂]
  push_neg at n₁ n₂
  have hcat : a.CategoryID = b.CategoryID := by
    have := n₁.1
    have := n₂.1
    omega
  refine ⟨hcat, string_eq_of_data (goStringLess_connex ?_ ?_)⟩
  · cases hg : goStringLess a.Name.data b.Name.data
    · rfl
    · exact absurd hg (n₁.2 hcat)
  · cases hg : goStringLess b.Name.data a.Name.data
    · rfl
    · exact absurd hg (n₂.2 hcat.symm)

theorem less_congr_right (a b c : Package) (hcat : a.CategoryID = b.CategoryID)
    (hname : a.Name = b.Name) : less c a = less c b := by
  unfold less
  rw [hcat, hname]

theorem sortLE_trans (a b c : Package) (h₁ : sortLE a b = true)
    (h₂ : sortLE b c = true) : sortLE a c = true := by
  unfold sortLE at h₁ h₂ ⊢
  simp only [Bool.not_eq_true'] at h₁ h₂ ⊢
  cases hca : less c a
  · rfl
  · exfalso
    cases hab : less a b
    · obtain ⟨hc, hn⟩ := less_connex a b hab h₁
      have hcb : less c b = true := (less_congr_right a b c hc hn) ▸ hca
      simp [hcb] at h₂
    · have hcb := less_trans c a b hca hab
      simp [hcb] at h₂

theorem sortLE_total (a b : Package) : (sortLE a b || sortLE b a) = true := by
  unfold sortLE
  cases hab : less a b
  · simp [hab]
  · simp [less_asymm a b hab]

/-! ### Reconciliation-loop lemmas -/

theorem multiInfoLoop_append {E : Type} (xs ys : List String)
    (results : List Package) (f : Package → Option E) :
    ∀ invs nf, multiInfoLoop xs results f = (invs, nf, none) →
      multiInfoLoop (xs ++ ys) results f =
        (invs ++ (multiInfoLoop ys results f).1,
         nf ++ (multiInfoLoop ys results f).2.1,
         (multiInfoLoop ys results f).2.2) := by
  induction xs with
  | nil =>
    intro invs nf h
    simp only [multiInfoLoop, Prod.mk.injEq] at h
    obtain ⟨h1, h2, -⟩ := h
    subst h1
    subst h2
    simp only [List.nil_append]
  | cons a rest ih =>
    intro invs nf h
    cases hfind : findPackage results a with
    | none =>
      simp only [multiInfoLoop, hfind, Prod.mk.injEq] at h
      obtain ⟨h1, h2, h3⟩ := h
      subst h1
      subst h2
      have hrest : multiInfoLoop rest results f =
          ((multiInfoLoop rest results f).1,
           (multiInfoLoop rest results f).2.1, none) := by
        rw [← h3]
      have hih := ih (multiInfoLoop rest results f).1
        (multiInfoLoop rest results f).2.1 hrest
      simp [multiInfoLoop, hfind, hih]
    | some pkg =>
      cases hf : f pkg with
      | some e =>
        simp only [multiInfoLoop, hfind, hf, Prod.mk.injEq] at h
        exact absurd h.2.2 (by simp)
      | none =>
        simp only [multiInfoLoop, hfind, hf, Prod.mk.injEq] at h
        obtain ⟨h1, h2, h3⟩ := h
        subst h1
        subst h2
        have hrest : multiInfoLoop rest results f =
            ((multiInfoLoop rest results f).1,
             (multiInfoLoop rest results f).2.1, none) := by
          rw [← h3]
        have hih := ih (multiInfoLoop rest results f).1
          (multiInfoLoop rest results f).2.1 hrest
        simp [multiInfoLoop, hfind, hf, hih]

/-! ### Claim theorems C1, C2, C3, C9 -/

/-- C1: the claim asserts that URL construction for a length-one identifier
does not panic and that identifier `foo` yields the path segment `fo/foo/...`.
The `foo` part holds, but for the single-character identifier `a` the slice
`s[0:2]` is out of bounds (2 > len("a")), so both commands panic: the
evaluation below records the panic (`none`) on `"a"` alongside the correct
segments for `"foo"`. -/
theorem C1_short_identifier_url :
    tarballURL "a" = none ∧ pkgbuildURL "a" = none ∧
    tarballURL "foo" =
      some "https://aur.archlinux.org/packages/fo/foo/foo.tar.gz" ∧
    pkgbuildURL "foo" =
      some "https://aur.archlinux.org/packages/fo/foo/PKGBUILD" :=
  ⟨by decide, by decide, rfl, rfl⟩

/-- C2 counterexample: the claim says the aggregate error is reported if and
only if some requested identifier had no exact-name match.  With requested
identifiers `["X"]` and a response whose only record is named `"Y"`, the
identifier `"X"` has no match (a not-found diagnostic is emitted), yet the
operation reports success, because the record count (1) is not smaller than
the identifier count (1). -/
theorem C2_counterexample_unmatched_but_ok :
    Package.Name pkgY ≠ "X" ∧
    multiInfo ["X"] [pkgY] (fun _ => (none : Option Unit)) =
      ([], ["X"], Except.ok ()) :=
  ⟨by decide, rfl⟩

/-- C2 (amended): when the callback never fails, the multi-lookup reports
the aggregate `PartialNotFoundError` if and only if the number of records in
the response is smaller than the number of requested identifiers; in
particular, when every requested identifier (the identifiers being distinct)
has a matching record, it reports success. -/
theorem C2_amended_aggregate_error {E : Type} (args : List String)
    (results : List Package) (f : Package → Option E)
    (hc : (multiInfoLoop args results f).2.2 = none) :
    ((multiInfo args results f).2.2 =
        Except.error MultiInfoError.someNotFound ↔
      results.length < args.length) ∧
    (args.Nodup → (∀ a ∈ args, ∃ p ∈ results, p.Name = a) →
      (multiInfo args results f).2.2 = Except.ok ()) := by
  have hm : multiInfo args results f =
      (if results.length < args.length then
        ((multiInfoLoop args results f).1,
         (multiInfoLoop args results f).2.1,
         Except.error MultiInfoError.someNotFound)
      else
        ((multiInfoLoop args results f).1,
         (multiInfoLoop args results f).2.1, Except.ok ())) := by
    simp only [multiInfo]
    rw [hc]
  rw [hm]
  constructor
  · split_ifs with h <;> simp [h]
  · intro hnd hall
    have hsub : args ⊆ results.map Package.Name := by
      intro a ha
      obtain ⟨p, hp, he⟩ := hall a ha
      exact List.mem_map.mpr ⟨p, hp, he⟩
    have hlen : args.length ≤ results.length := by
      have h1 := (hnd.subperm hsub).length_le
      simpa using h1
    rw [if_neg (by omega)]

/-- Witness for C2 (amended) at the concrete instance of requested
identifiers `["X"]` against the single matching record `pkgX`. -/
theorem C2_amended_witness :
    ((multiInfo ["X"] [pkgX] (fun _ => (none : Option Unit))).2.2 =
        Except.error MultiInfoError.someNotFound ↔
      List.length [pkgX] < List.length ["X"]) ∧
    (List.Nodup ["X"] → (∀ a ∈ ["X"], ∃ p ∈ [pkgX], Package.Name p = a) →
      (multiInfo ["X"] [pkgX] (fun _ => (none : Option Unit))).2.2 =
        Except.ok ()) :=
  C2_amended_aggregate_error ["X"] [pkgX] (fun _ => (none : Option Unit)) rfl

/-- C3: with requested identifiers `[X, Y, Z]` and a response containing only
the records named `Z` then `Y`, the reconciler invokes the callback exactly
twice — on Y's record then Z's record, the caller's order — emits a
not-found diagnostic for `X`, and reports failure; with identifiers `[X]`
and a response containing `X`, it invokes the callback once and reports
success. -/
theorem C3_reconciler_concrete_scenarios :
    multiInfo ["X", "Y", "Z"] [pkgZ, pkgY] (fun _ => (none : Option Unit)) =
      ([pkgY, pkgZ], ["X"], Except.error MultiInfoError.someNotFound) ∧
    multiInfo ["X"] [pkgX] (fun _ => (none : Option Unit)) =
      ([pkgX], [], Except.ok ()) :=
  ⟨rfl, rfl⟩

/-- C9: if the callback fails on the matched record of some identifier, the
reconciliation returns that callback error immediately: the identifiers after
the failing one contribute no callback invocation and no not-found
diagnostic, and no aggregate not-found error is reported. -/
theorem C9_callback_error_short_circuits {E : Type} (xs ys : List String)
    (a : String) (results : List Package) (f : Package → Option E)
    (pkg : Package) (e : E) (invs : List Package) (nf : List String)
    (hpre : multiInfoLoop xs results f = (invs, nf, none))
    (hfind : findPackage results a = some pkg)
    (hf : f pkg = some e) :
    multiInfo (xs ++ a :: ys) results f =
      (invs ++ [pkg], nf, Except.error (MultiInfoError.callbackErr e)) := by
  have hloop : multiInfoLoop (a :: ys) results f = ([pkg], [], some e) := by
    simp only [multiInfoLoop, hfind, hf]
  have happ := multiInfoLoop_append xs (a :: ys) results f invs nf hpre
  rw [hloop] at happ
  simp only [List.append_nil] at happ
  simp only [multiInfo, happ]

/-- Witness for C9: with the failing callback invoked on the match for `X`,
the later identifier `Q` (which would otherwise produce a not-found
diagnostic) is never processed. -/
theorem C9_short_circuit_witness :
    multiInfo ([] ++ "X" :: ["Q"]) [pkgX] (fun _ => (some 7 : Option Nat)) =
      ([] ++ [pkgX], [], Except.error (MultiInfoError.callbackErr 7)) :=
  C9_callback_error_short_circuits [] ["Q"] "X" [pkgX] (fun _ => some 7)
    pkgX 7 [] [] rfl rfl rfl

/-! ### Timestamp-decoder lemma -/

theorem goAtoiDigits_isSome (neg : Bool) (ds : List Char) :
    (goAtoiDigits neg ds).isSome = validTokenBody neg ds := by
  unfold goAtoiDigits validTokenBody
  cases neg <;> split_ifs with h1 h2 h3 <;> simp_all
  · split_ifs with h4
    · simp_all [List.isEmpty_iff]
    · simp_all [List.isEmpty_iff]
      omega
  · split_ifs with h4
    · simp_all [List.isEmpty_iff]
    · simp_all [List.isEmpty_iff]
      omega

/-! ### Claim theorems C4, C7, C8, C10 -/

/-- C4: the search-result comparison behaves as a total order on records:
a record with a smaller category identifier compares below any record with a
larger one regardless of names; within equal categories the byte-wise
smaller name compares below; the comparison is asymmetric and transitive,
and two records that compare below each other in neither direction agree on
both category identifier and name; consequently the sort emits a permutation
of its input in which no later element compares below an earlier one. -/
theorem C4_search_comparison_total_order :
    (∀ a b : Package, a.CategoryID < b.CategoryID → less a b = true) ∧
    (∀ a b : Package, a.CategoryID = b.CategoryID →
      goStringLess a.Name.data b.Name.data = true → less a b = true) ∧
    (∀ a b : Package, less a b = true → less b a = false) ∧
    (∀ a b c : Package, less a b = true → less b c = true →
      less a c = true) ∧
    (∀ a b : Package, less a b = false → less b a = false →
      a.CategoryID = b.CategoryID ∧ a.Name = b.Name) ∧
    (∀ l : List Package,
      (sortPackages l).Pairwise fun a b => less b a = false) ∧
    (∀ l : List Package, (sortPackages l).Perm l) := by
  refine ⟨?_, ?_, less_asymm, less_trans, less_connex, ?_, ?_⟩
  · intro a b h
    exact (less_iff a b).mpr (Or.inl h)
  · intro a b hc hn
    exact (less_iff a b).mpr (Or.inr ⟨hc, hn⟩)
  · intro l
    have hs := List.sorted_mergeSort sortLE_trans sortLE_total l
    refine hs.imp ?_
    intro a b h
    simpa [sortLE, Bool.not_eq_true'] using h
  · intro l
    exact List.mergeSort_perm l sortLE

/-- Witness for C4: a record of category 3 compares below a record of
category 21, and below a same-category record of larger name. -/
theorem C4_total_order_witness :
    less pkgX pkgBadCat = true ∧ less pkgX pkgY = true :=
  ⟨C4_search_comparison_total_order.1 pkgX pkgBadCat (by decide),
   C4_search_comparison_total_order.2.1 pkgX pkgY (by decide) (by decide)⟩

/-- C7: the timestamp decoder succeeds exactly on valid base-10 integer
tokens (optional sign, one or more decimal digits, value fitting the 64-bit
integer type) — in particular it rejects ISO-8601 date text — and decoding
the scalar `1350939768` yields that many seconds since the Unix epoch,
which is the instant 2012-10-22T21:02:48Z. -/
theorem C7_timestamp_decoder :
    (∀ s : String, (timeUnmarshalJSON s).isSome = validIntegerToken s) ∧
    timeUnmarshalJSON "1350939768" = some 1350939768 ∧
    timeUnmarshalJSON "2012-10-22T21:02:48Z" = none ∧
    epochSecondsUTC 2012 10 22 21 2 48 = 1350939768 := by
  refine ⟨?_, by decide, by decide, by decide⟩
  intro s
  show (goAtoi s).isSome = validIntegerToken s
  unfold goAtoi validIntegerToken
  cases hsd : s.data with
  | nil => exact goAtoiDigits_isSome false []
  | cons c rest =>
    show (if c = '-' then goAtoiDigits true rest
        else if c = '+' then goAtoiDigits false rest
        else goAtoiDigits false (c :: rest)).isSome =
      (if c = '-' then validTokenBody true rest
        else if c = '+' then validTokenBody false rest
        else validTokenBody false (c :: rest))
    split_ifs <;> apply goAtoiDigits_isSome

/-- C8: a record with nonzero staleness flag renders, in verbose mode, a
version line ending in the literal suffix `[out of date]`, while compact
mode renders its version in the stale (red) color class with no textual
suffix; with the flag equal to 0, compact mode uses the current (green)
color class and verbose mode appends no suffix. -/
theorem C8_staleness_rendering (p : Package) :
    (p.OutOfDate ≠ 0 →
      (∃ pre, infoVersionLine p = pre ++ "[out of date]") ∧
      searchVersionColor p = "\x1B[1;31m") ∧
    (p.OutOfDate = 0 →
      infoVersionLine p = "\x1B[1mVersion         : \x1B[0m" ++ p.Version ∧
      searchVersionColor p = "\x1B[1;32m") ∧
    searchVersionChunk p = p.Version ++ "\n" := by
  refine ⟨fun h => ⟨?_, ?_⟩, fun h => ⟨?_, ?_⟩, rfl⟩
  · refine ⟨"\x1B[1mVersion         : \x1B[0m" ++ p.Version ++ " ", ?_⟩
    unfold infoVersionLine
    rw [if_pos (by simpa using h)]
    rw [show (" [out of date]" : String) = " " ++ "[out of date]" from rfl]
    simp [String.append_assoc]
  · unfold searchVersionColor
    rw [if_neg (by simpa using h)]
  · unfold infoVersionLine
    rw [if_neg (by simp [h]), String.append_empty]
  · unfold searchVersionColor
    rw [if_pos (by simp [h])]

/-- Witness for C8 at a stale record (`pkgStale`) and a current record
(`pkgX`). -/
theorem C8_staleness_witness :
    ((∃ pre, infoVersionLine pkgStale = pre ++ "[out of date]") ∧
      searchVersionColor pkgStale = "\x1B[1;31m") ∧
    (infoVersionLine pkgX =
        "\x1B[1mVersion         : \x1B[0m" ++ Package.Version pkgX ∧
      searchVersionColor pkgX = "\x1B[1;32m") ∧
    searchVersionChunk pkgStale = Package.Version pkgStale ++ "\n" :=
  ⟨(C8_staleness_rendering pkgStale).1 (by decide),
   (C8_staleness_rendering pkgX).2.1 rfl,
   (C8_staleness_rendering pkgStale).2.2⟩

/-- The category-table lookup panics exactly outside 0..20. -/
theorem categoriesGet_out_of_range {i : Int} (hi : i < 0 ∨ 20 < i) :
    categoriesGet i = none := by
  unfold categoriesGet
  rcases hi with hi | hi
  · rw [if_neg (by omega)]
  · rw [if_pos (by omega)]
    have hlen : categories.length = 21 := rfl
    exact List.getElem?_eq_none (by rw [hlen]; omega)

/-- C10: the fixed category table is indexed without a bounds check: for a
category identifier between 0 and 20 the lookup is total (0 yields the empty
name from the sparse slice literal, 1 through 20 the fixed names), while a
negative identifier or one above 20 makes both compact and verbose
rendering panic with an index-out-of-range failure instead of returning an
error. -/
theorem C10_category_indexing_no_bounds_check :
    (∀ i : Int, 0 ≤ i → i ≤ 20 → (categoriesGet i).isSome = true) ∧
    (categoriesGet 0 = some "" ∧ categoriesGet 1 = some "none" ∧
     categoriesGet 2 = some "daemons" ∧ categoriesGet 3 = some "devel" ∧
     categoriesGet 4 = some "editors" ∧ categoriesGet 5 = some "emulators" ∧
     categoriesGet 6 = some "games" ∧ categoriesGet 7 = some "gnome" ∧
     categoriesGet 8 = some "18n" ∧ categoriesGet 9 = some "kde" ∧
     categoriesGet 10 = some "lib" ∧ categoriesGet 11 = some "modules" ∧
     categoriesGet 12 = some "multimedia" ∧
     categoriesGet 13 = some "network" ∧ categoriesGet 14 = some "office" ∧
     categoriesGet 15 = some "science" ∧ categoriesGet 16 = some "system" ∧
     categoriesGet 17 = some "x11" ∧ categoriesGet 18 = some "xfce" ∧
     categoriesGet 19 = some "kernels" ∧ categoriesGet 20 = some "fonts") ∧
    (∀ i : Int, i < 0 ∨ 20 < i → categoriesGet i = none) ∧
    (∀ (p : Package) (fmtTime : Int → String),
      p.CategoryID < 0 ∨ 20 < p.CategoryID →
        searchChunks p = none ∧ infoLines fmtTime p = none) := by
  refine ⟨?_, by decide, fun i hi => categoriesGet_out_of_range hi, ?_⟩
  · intro i h0 h20
    unfold categoriesGet
    rw [if_pos h0]
    have hlen : categories.length = 21 := rfl
    have hlt : i.toNat < categories.length := by rw [hlen]; omega
    simp [List.getElem?_eq_getElem hlt]
  · intro p fmtTime hp
    have hnone := categoriesGet_out_of_range hp
    constructor
    · unfold searchChunks
      rw [hnone]
      rfl
    · unfold infoLines
      rw [hnone]
      rfl

/-- Witness for C10: index 5 is in range; the record `pkgBadCat` with
category identifier 21 makes both renderings panic. -/
theorem C10_category_indexing_witness :
    (categoriesGet 5).isSome = true ∧ categoriesGet 21 = none ∧
    searchChunks pkgBadCat = none ∧
    infoLines (fun _ => "") pkgBadCat = none :=
  ⟨C10_category_indexing_no_bounds_check.1 5 (by decide) (by decide),
   C10_category_indexing_no_bounds_check.2.2.1 21 (by decide),
   (C10_category_indexing_no_bounds_check.2.2.2 pkgBadCat (fun _ => "")
     (by decide)).1,
   (C10_category_indexing_no_bounds_check.2.2.2 pkgBadCat (fun _ => "")
     (by decide)).2⟩

end Seekaur
